import Mathlib

/-!
Verification of the `python_scripts` repository: a shallow embedding of
`jar_package_scanner.py`, `jar_text_scanner.py` and `java_text_searcher.py`,
together with proofs of the behavioural properties stated in the design
specification.  Python library primitives (bytes, `str` methods, `os.path`,
`os.walk`, the two regular expressions the scripts use) are modelled as
executable Lean functions; each script-level function is translated
line-by-line from the source.
-/

namespace PyLib

/-- Model of a Python `bytes` value: a list of byte values, each `< 256`. -/
abbrev PyBytes := List Nat

/-- UTF-8 encoding of one character (model of CPython's UTF-8 encoder). -/
def utf8EncodeChar (c : Char) : List Nat :=
  let n := c.toNat
  if n < 0x80 then [n]
  else if n < 0x800 then [0xC0 + n / 64, 0x80 + n % 64]
  else if n < 0x10000 then [0xE0 + n / 4096, 0x80 + (n / 64) % 64, 0x80 + n % 64]
  else [0xF0 + n / 262144, 0x80 + (n / 4096) % 64, 0x80 + (n / 64) % 64, 0x80 + n % 64]

/-- Model of Python `str.encode('utf-8')`. -/
def utf8Encode (s : String) : PyBytes := s.data.flatMap utf8EncodeChar

/-- Is a UTF-8 continuation byte (`0x80..0xBF`). -/
def isCont (b : Nat) : Bool := 0x80 ≤ b && b ≤ 0xBF

/-- Value carried by a continuation byte. -/
def contVal (b : Nat) : Nat := b - 0x80

/-- Valid first continuation byte after a three-byte lead (the `E0`/`ED`
special ranges exclude overlong forms and surrogates, as CPython does). -/
def cont1Ok3 (b c1 : Nat) : Bool :=
  if b = 0xE0 then 0xA0 ≤ c1 && c1 ≤ 0xBF
  else if b = 0xED then 0x80 ≤ c1 && c1 ≤ 0x9F
  else isCont c1

/-- Valid first continuation byte after a four-byte lead (`F0`/`F4` ranges). -/
def cont1Ok4 (b c1 : Nat) : Bool :=
  if b = 0xF0 then 0x90 ≤ c1 && c1 ≤ 0xBF
  else if b = 0xF4 then 0x80 ≤ c1 && c1 ≤ 0x8F
  else isCont c1

/-- Fuel-indexed UTF-8 decoder with the `errors='ignore'` policy: an invalid
byte (or the maximal valid prefix of an incomplete sequence) is skipped and
decoding resumes at the next byte, mirroring CPython's error handler.  The
fuel only needs to be at least the number of decoding steps; each step
consumes at least one byte. -/
def utf8DecodeIgnoreAux : Nat → List Nat → List Char
  | 0, _ => []
  | _ + 1, [] => []
  | fuel + 1, b :: rest =>
    if b ≤ 0x7F then
      Char.ofNat b :: utf8DecodeIgnoreAux fuel rest
    else if b ≤ 0xC1 then
      utf8DecodeIgnoreAux fuel rest
    else if b ≤ 0xDF then
      match rest with
      | [] => []
      | c1 :: rest1 =>
        if isCont c1 then
          Char.ofNat ((b - 0xC0) * 64 + contVal c1) :: utf8DecodeIgnoreAux fuel rest1
        else
          utf8DecodeIgnoreAux fuel rest
    else if b ≤ 0xEF then
      match rest with
      | [] => []
      | c1 :: rest1 =>
        if cont1Ok3 b c1 then
          match rest1 with
          | [] => []
          | c2 :: rest2 =>
            if isCont c2 then
              Char.ofNat ((b - 0xE0) * 4096 + contVal c1 * 64 + contVal c2) ::
                utf8DecodeIgnoreAux fuel rest2
            else
              utf8DecodeIgnoreAux fuel rest1
        else
          utf8DecodeIgnoreAux fuel rest
    else if b ≤ 0xF4 then
      match rest with
      | [] => []
      | c1 :: rest1 =>
        if cont1Ok4 b c1 then
          match rest1 with
          | [] => []
          | c2 :: rest2 =>
            if isCont c2 then
              match rest2 with
              | [] => []
              | c3 :: rest3 =>
                if isCont c3 then
                  Char.ofNat ((b - 0xF0) * 262144 + contVal c1 * 4096 +
                      contVal c2 * 64 + contVal c3) ::
                    utf8DecodeIgnoreAux fuel rest3
                else
                  utf8DecodeIgnoreAux fuel rest2
            else
              utf8DecodeIgnoreAux fuel rest1
        else
          utf8DecodeIgnoreAux fuel rest
    else
      utf8DecodeIgnoreAux fuel rest

/-- Model of Python `bytes.decode('utf-8', errors='ignore')`. -/
def utf8DecodeIgnore (bs : PyBytes) : String :=
  String.mk (utf8DecodeIgnoreAux bs.length bs)

/-- Characters Python `str.splitlines` treats as line boundaries. -/
def isPyLineBreak (c : Char) : Bool :=
  c = '\n' || c = '\r' || c = '\x0b' || c = '\x0c' ||
  c = '\x1c' || c = '\x1d' || c = '\x1e' || c = '\x85' || c = '\u2028' || c = '\u2029'

/-- Worker for `pySplitlines`: `acc` holds the current line reversed.
A `\r\n` pair counts as a single boundary, as in CPython. -/
def pySplitlinesAux : List Char → List Char → List String
  | [], acc => if acc.isEmpty then [] else [String.mk acc.reverse]
  | '\r' :: '\n' :: rest2, acc => String.mk acc.reverse :: pySplitlinesAux rest2 []
  | '\r' :: rest, acc => String.mk acc.reverse :: pySplitlinesAux rest []
  | c :: rest, acc =>
    if isPyLineBreak c then
      String.mk acc.reverse :: pySplitlinesAux rest []
    else
      pySplitlinesAux rest (c :: acc)

/-- Model of Python `str.splitlines()` (no kept line endings; a trailing
break produces no empty final line; the empty string gives no lines). -/
def pySplitlines (s : String) : List String := pySplitlinesAux s.data []

/-- Characters stripped by Python `str.strip()` (Unicode whitespace;
the ASCII portion plus the common one-byte Unicode spaces). -/
def isPyStripSpace (c : Char) : Bool :=
  c = ' ' || c = '\t' || c = '\n' || c = '\r' || c = '\x0b' || c = '\x0c' ||
  c = '\x1c' || c = '\x1d' || c = '\x1e' || c = '\x1f' || c = '\x85' || c = '\xa0'

/-- Model of Python `str.strip()`. -/
def pyStrip (s : String) : String :=
  String.mk (((s.data.dropWhile isPyStripSpace).reverse.dropWhile isPyStripSpace).reverse)

/-- Contiguous-sublist test: does `needle` occur somewhere inside the
second list? -/
def listIsInfix (needle : List Char) : List Char → Bool
  | [] => needle.isEmpty
  | c :: rest => needle.isPrefixOf (c :: rest) || listIsInfix needle rest

/-- Model of Python `needle in hay` on `str`: contiguous substring test. -/
def pyStrContains (hay needle : String) : Bool := listIsInfix needle.data hay.data

/-- Model of Python `str.lower()` (ASCII case mapping, which is all the
scripts' suffix and search comparisons exercise). -/
def pyLower (s : String) : String := String.mk (s.data.map Char.toLower)

/-- Model of Python `str.endswith(suffix)`. -/
def pyEndsWith (s suffix : String) : Bool := suffix.data.isSuffixOf s.data

/-- Model of Python `c in s` for a one-character needle `c`. -/
def pyContainsChar (s : String) (c : Char) : Bool := s.data.contains c

/-- Worker for `pyBytesFind`: first index at or after `i` where `needle`
occurs in the remaining haystack. -/
def pyBytesFindAux (needle : PyBytes) : PyBytes → Nat → Option Nat
  | [], i => if needle.isEmpty then some i else none
  | b :: rest, i =>
    if needle.isPrefixOf (b :: rest) then some i
    else pyBytesFindAux needle rest (i + 1)

/-- Model of Python `hay.find(needle)` on `bytes`, as an `Option`
(`none` stands for the `-1` CPython returns when absent). -/
def pyBytesFind (hay needle : PyBytes) : Option Nat := pyBytesFindAux needle hay 0

/-- Model of Python `needle in hay` on `bytes`. -/
def pyBytesContains (hay needle : PyBytes) : Bool := (pyBytesFind hay needle).isSome

/-- Lower-case hexadecimal digit, as CPython prints in `\xHH` escapes. -/
def hexDigitChar (n : Nat) : Char :=
  if n < 10 then Char.ofNat (48 + n) else Char.ofNat (87 + n)

/-- Escape one byte the way `repr(bytes)` does, given the quote byte the
repr chose as delimiter. -/
def pyByteEscape (quote b : Nat) : String :=
  if b = 0x5C then "\\\\"
  else if b = quote then String.mk [Char.ofNat 0x5C, Char.ofNat quote]
  else if b = 0x09 then "\\t"
  else if b = 0x0A then "\\n"
  else if b = 0x0D then "\\r"
  else if 0x20 ≤ b && b ≤ 0x7E then String.mk [Char.ofNat b]
  else String.mk [Char.ofNat 0x5C, 'x', hexDigitChar (b / 16), hexDigitChar (b % 16)]

/-- Model of Python `str(b)` (= `repr`) for a `bytes` value: `b` followed by
the quoted, escaped content; double quotes are used as delimiter exactly when
the bytes contain a single quote but no double quote. -/
def pyBytesRepr (bs : PyBytes) : String :=
  let quote : Nat := if bs.contains 0x27 && !(bs.contains 0x22) then 0x22 else 0x27
  let body := (bs.map (pyByteEscape quote)).foldl (fun a s => a ++ s) ""
  "b" ++ String.mk [Char.ofNat quote] ++ body ++ String.mk [Char.ofNat quote]

/-- Model of Python `sep.join(parts)`. -/
def pyJoin (sep : String) : List String → String
  | [] => ""
  | x :: xs => xs.foldl (fun a s => a ++ sep ++ s) x

/-- Is a byte matched by the class `[\x01-\x7F]` of the deep-inspection
regular expression. -/
def isAsciiRunByte (b : Nat) : Bool := 1 ≤ b && b ≤ 0x7F

/-- Worker collecting the maximal runs of `[\x01-\x7F]` bytes, left to
right; fuel at least the length of the input suffices. -/
def asciiRunsAux : Nat → PyBytes → List PyBytes
  | 0, _ => []
  | _ + 1, [] => []
  | fuel + 1, b :: rest =>
    if isAsciiRunByte b then
      ((b :: rest).takeWhile isAsciiRunByte) ::
        asciiRunsAux fuel ((b :: rest).dropWhile isAsciiRunByte)
    else
      asciiRunsAux fuel rest

/-- Model of `re.findall(b'[\x01-\x7F]{3,}', content)`: the greedy,
non-overlapping matches are exactly the maximal printable runs of length at
least three. -/
def pyFindallAsciiRuns (bs : PyBytes) : List PyBytes :=
  (asciiRunsAux bs.length bs).filter fun r => 3 ≤ r.length

/-- Model of `posixpath.dirname` (ZIP entry names use `/` separators):
everything up to the last slash, with trailing slashes stripped unless the
result is nothing but slashes. -/
def os_path_dirname (s : String) : String :=
  let head := (s.data.reverse.dropWhile (fun c => c ≠ '/')).reverse
  if head.isEmpty then ""
  else if head.all (fun c => c = '/') then String.mk head
  else String.mk ((head.reverse.dropWhile (fun c => c = '/')).reverse)

/-- Model of Python `s.replace(a, b)` for one-character `a` and `b`. -/
def pyReplaceChar (s : String) (a b : Char) : String :=
  String.mk (s.data.map fun c => if c = a then b else c)

/-- A directory tree: the files directly inside, and the subdirectories.
Used to model `os.walk` inputs. -/
inductive FileTree where
  | node : List String → List FileTree → FileTree

mutual

/-- All file names yielded by `os.walk` over the tree, top-down: the
directory's own files first, then the files of each subtree in order.  This
is the stream the enumerators' `for root, _, files in os.walk(...)` loops
iterate over. -/
def os_walk_files : FileTree → List String
  | FileTree.node files subdirs => files ++ os_walk_forest subdirs

/-- File names of a list of subtrees, in order. -/
def os_walk_forest : List FileTree → List String
  | [] => []
  | t :: ts => os_walk_files t ++ os_walk_forest ts

end

/-- One member of a ZIP archive as the scanners see it: its entry name and
its raw byte content; `none` content models a member whose `open`/`read`
raises (`EntryReadError`), which every scanner catches and skips. -/
structure ZipEntry where
  name : String
  content : Option PyBytes
deriving DecidableEq

/-- An archive as handed to a per-archive scan: `none` models a path for
which `zipfile.ZipFile(...)` raises (`BadZipFile` or any other container
failure); `some entries` is the `namelist()` of a readable archive. -/
abbrev ZipArchive := Option (List ZipEntry)

end PyLib

namespace JarPackageScanner

open PyLib

/-- Python `==` between a `str` and an `(str, str)` tuple: operands of
different types never compare equal in Python, so this is constantly
`false`.  It is the comparison the `in` tests of `scan_jar_file` perform,
since `results` there is a list of 2-tuples while the probe is a string. -/
def pyStrEqPair (_s : String) (_p : String × String) : Bool := false

/-- Model of Python `s in results` with `s : str` and
`results : list[tuple[str, str]]`: membership via `==` on each element. -/
def pyStrInPairList (s : String) (l : List (String × String)) : Bool :=
  l.any (pyStrEqPair s)

/-- Characters matched by the class `[a-zA-Z0-9_.]` of the package
declaration regular expression. -/
def isPkgIdentChar (c : Char) : Bool :=
  ('a' ≤ c && c ≤ 'z') || ('A' ≤ c && c ≤ 'Z') || ('0' ≤ c && c ≤ '9') ||
  c = '_' || c = '.'

/-- Characters matched by `\s` in a Python `str` pattern (Unicode
whitespace; the ASCII portion plus the common one-byte Unicode spaces). -/
def isPyRegexSpace (c : Char) : Bool :=
  c = ' ' || c = '\t' || c = '\n' || c = '\r' || c = '\x0b' || c = '\x0c' ||
  c = '\x1c' || c = '\x1d' || c = '\x1e' || c = '\x1f' || c = '\x85' || c = '\xa0'

/-- Match a literal character sequence at the head of the input, returning
the rest on success. -/
def matchLiteral : List Char → List Char → Option (List Char)
  | [], l => some l
  | _ :: _, [] => none
  | c :: cs, x :: xs => if x = c then matchLiteral cs xs else none

/-- Greedy `p+` at the head of the input: the nonempty maximal run and the
rest, or `none` if the first character does not match. -/
def takeWhile1 (p : Char → Bool) (l : List Char) : Option (List Char × List Char) :=
  match l.takeWhile p with
  | [] => none
  | tk => some (tk, l.dropWhile p)

/-- Try to match the pattern `package\s+([a-zA-Z0-9_.]+);` at the current
position, returning the captured group and the input after the match.
Because the three parts of the pattern use pairwise disjoint character
sets, the greedy no-backtracking reading is exactly CPython's semantics. -/
def matchPackageAt (l : List Char) : Option (String × List Char) :=
  match matchLiteral "package".data l with
  | none => none
  | some l1 =>
    match takeWhile1 isPyRegexSpace l1 with
    | none => none
    | some (_, l2) =>
      match takeWhile1 isPkgIdentChar l2 with
      | none => none
      | some (ident, l3) =>
        match l3 with
        | [] => none
        | c :: l4 => if c = ';' then some (String.mk ident, l4) else none

/-- Worker for `findPackageDecls`: scan left to right, emitting each
non-overlapping match and resuming after its end, as `re.findall` does.
Fuel at least the input length suffices (every step consumes a character). -/
def findPackageDeclsAux : Nat → List Char → List String
  | 0, _ => []
  | _ + 1, [] => []
  | fuel + 1, l =>
    match matchPackageAt l with
    | some (m, l2) => m :: findPackageDeclsAux fuel l2
    | none =>
      match l with
      | [] => []
      | _ :: rest => findPackageDeclsAux fuel rest

/-- Model of `re.findall(r'package\s+([a-zA-Z0-9_.]+);', content)`. -/
def findPackageDecls (content : String) : List String :=
  findPackageDeclsAux content.data.length content.data

/-- Embedding of `scan_jar_file` from `jar_package_scanner.py`: walk the
entry list; for a `.class` entry derive the package from its directory path
(slash-to-dot); for a `.java` entry decode and extract every regex match;
each candidate is appended after the (vacuous, see `pyStrEqPair`)
`not in results` membership test.  A failed container open returns the
empty list via the outer `except`. -/
def scan_jar_file (jar_path : String) (archive : ZipArchive) : List (String × String) :=
  match archive with
  | none => []
  | some entries =>
    entries.foldl (fun results e =>
      if pyEndsWith e.name ".class" then
        let package_path := os_path_dirname e.name
        if package_path ≠ "" then
          let package_name := pyReplaceChar package_path '/' '.'
          if pyStrInPairList package_name results then results
          else results ++ [(package_name, jar_path)]
        else results
      else if pyEndsWith e.name ".java" then
        match e.content with
        | none => results
        | some bytes =>
          let content := utf8DecodeIgnore bytes
          (findPackageDecls content).foldl (fun results m =>
            if pyStrInPairList m results then results
            else results ++ [(m, jar_path)]) results
      else results) []

/-- Embedding of `find_jar_files` from `jar_package_scanner.py` (the copy
in `jar_text_scanner.py` is identical): every walked file whose lower-cased
name ends in `.jar`. -/
def find_jar_files (t : FileTree) : List String :=
  (os_walk_files t).filter fun f => pyEndsWith (pyLower f) ".jar"

end JarPackageScanner

namespace JarTextScanner

open PyLib

/-- Configuration of one text-scanner run, as read from the command line
(`search_text`, `-c`, `-b`, `--deep`). -/
structure SearchCfg where
  search_text : String
  case_sensitive : Bool
  binary_mode : Bool
  deep_inspection : Bool
deriving DecidableEq

/-- One result tuple `(file_name, jar_path, line_number, matching_line)` as
built by `scan_jar_file_for_text`. -/
structure MatchRecord where
  file_name : String
  jar_path : String
  line_number : Nat
  snippet : String
deriving DecidableEq

/-- The extension allow-list of `scan_jar_file_for_text`, verbatim. -/
def text_extensions : List String :=
  [".java", ".class", ".xml", ".properties", ".txt", ".md",
   ".yml", ".yaml", ".json", ".html", ".css", ".js", ".jsp",
   ".config", ".ini", ".conf", ".MF", ".sql"]

/-- Embedding of the per-entry filter of `scan_jar_file_for_text`:
`True if binary_mode else (any(file_name.endswith(ext) for ext in
text_extensions) or '.' not in file_name)`. -/
def is_target_file (binary_mode : Bool) (file_name : String) : Bool :=
  if binary_mode then true
  else (text_extensions.any fun ext => pyEndsWith file_name ext) ||
    !(pyContainsChar file_name '.')

/-- One iteration of the text-mode line loop: a line yields one record,
carrying its 1-based number and the stripped line text, exactly when it
contains the search string (lower-cased comparison unless case-sensitive). -/
def scanLine (cfg : SearchCfg) (jar_path file_name : String)
    (line_num : Nat) (line : String) : List MatchRecord :=
  if cfg.case_sensitive then
    if pyStrContains line cfg.search_text then
      [{ file_name := file_name, jar_path := jar_path,
         line_number := line_num, snippet := pyStrip line }]
    else []
  else
    if pyStrContains (pyLower line) (pyLower cfg.search_text) then
      [{ file_name := file_name, jar_path := jar_path,
         line_number := line_num, snippet := pyStrip line }]
    else []

/-- Text-mode branch of `scan_jar_file_for_text` for one entry: decode the
bytes permissively, split into lines, and scan each line. -/
def scanEntryText (cfg : SearchCfg) (jar_path file_name : String)
    (content_bytes : PyBytes) : List MatchRecord :=
  let content := utf8DecodeIgnore content_bytes
  let lines := pySplitlines content
  (List.enumFrom 1 lines).flatMap fun p => scanLine cfg jar_path file_name p.1 p.2

/-- Binary-mode branch of `scan_jar_file_for_text` for one entry: if the
encoded search text occurs in the raw bytes, emit one record at the first
occurrence, with a 20-byte context window on each side (or, for a class
file under deep inspection with at least one printable run, up to twenty
extracted string literals), and line number `0`.  `max(0, match_pos - 20)`
is the truncated subtraction of `Nat`. -/
def scanEntryBinary (cfg : SearchCfg) (jar_path file_name : String)
    (content : PyBytes) : List MatchRecord :=
  let search_bytes := utf8Encode cfg.search_text
  match pyBytesFind content search_bytes with
  | none => []
  | some match_pos =>
    let start_pos := match_pos - 20
    let end_pos := min content.length (match_pos + search_bytes.length + 20)
    let context := (content.take end_pos).drop start_pos
    let context_str := pyBytesRepr context
    let context_str :=
      if pyEndsWith file_name ".class" && cfg.deep_inspection then
        let string_matches := pyFindallAsciiRuns content
        if string_matches.isEmpty then context_str
        else "String literals: " ++ pyJoin " | " ((string_matches.take 20).map pyBytesRepr)
      else context_str
    [{ file_name := file_name, jar_path := jar_path, line_number := 0,
       snippet := "Binary match at position " ++ Nat.repr match_pos ++ ": " ++ context_str }]

/-- Per-entry body of `scan_jar_file_for_text`: filter by name, then read
and scan; an entry whose read raises is skipped by the inner
`except ... pass`. -/
def scanEntry (cfg : SearchCfg) (jar_path : String) (e : ZipEntry) : List MatchRecord :=
  if is_target_file cfg.binary_mode e.name then
    match e.content with
    | none => []
    | some content =>
      if cfg.binary_mode then scanEntryBinary cfg jar_path e.name content
      else scanEntryText cfg jar_path e.name content
  else []

/-- Embedding of `scan_jar_file_for_text`: scan every entry of the archive
in order, accumulating records; a container that fails to open is caught by
the outer `except`, which prints a diagnostic and returns the (empty)
accumulated list. -/
def scan_jar_file_for_text (cfg : SearchCfg) (jar_path : String)
    (archive : ZipArchive) : List MatchRecord :=
  match archive with
  | none => []
  | some entries => entries.flatMap (scanEntry cfg jar_path)

/-- Embedding of the aggregation of `process_jar_files`: one scan per
archive (the tasks are independent and `asyncio.gather` keeps input order),
then `jar_to_matches[jar_path] = jar_results` only `if jar_results`.  The
dictionary is modelled as the insertion-ordered association list; the
walked paths are pairwise distinct. -/
def process_jar_files (cfg : SearchCfg)
    (jars : List (String × ZipArchive)) : List (String × List MatchRecord) :=
  match jars with
  | [] => []
  | (p, a) :: rest =>
    let r := scan_jar_file_for_text cfg p a
    if r.isEmpty then process_jar_files cfg rest
    else (p, r) :: process_jar_files cfg rest

/-- What the reporter prints for one visited JAR (lines 224-238 of
`jar_text_scanner.py`): the records actually shown and the optional
"... and k more matches" notice. -/
structure SourceRender where
  path : String
  shown : List MatchRecord
  more_notice : Option Nat
deriving DecidableEq

/-- Whole-report observables: the per-JAR renders in visit order, the two
running counters of `main`, and the optional "Output limit reached.
k more JAR files with matches not shown." notice. -/
structure Report where
  renders : List SourceRender
  total_matches : Nat
  displayed_matches : Nat
  limit_notice : Option Nat
deriving DecidableEq

/-- Per-JAR display step of `main`: `display_count = min(len(matches),
limit_per_jar)`, the first `display_count` records are printed, and the
truncation notice appears exactly when `len(matches) > limit_per_jar`,
stating `len(matches) - limit_per_jar`. -/
def renderSource (limit_per_jar : Nat) (path : String)
    (ms : List MatchRecord) : SourceRender :=
  let display_count := min ms.length limit_per_jar
  { path := path
    shown := ms.take display_count
    more_notice :=
      if limit_per_jar < ms.length then some (ms.length - limit_per_jar)
      else none }

/-- The result-printing loop of `main` over the sorted JAR list:
`total_matches += len(matches)` and `displayed_matches += display_count`
per visited JAR, breaking after the JAR on which `displayed_matches`
reaches `total_limit` (announcing the number of remaining JARs if any). -/
def renderLoop (limit_per_jar total_limit : Nat) :
    List (String × List MatchRecord) → Nat → Nat → Report
  | [], total, displayed =>
    { renders := [], total_matches := total, displayed_matches := displayed,
      limit_notice := none }
  | (p, ms) :: rest, total, displayed =>
    let total2 := total + ms.length
    let r := renderSource limit_per_jar p ms
    let displayed2 := displayed + min ms.length limit_per_jar
    if total_limit ≤ displayed2 then
      { renders := [r], total_matches := total2, displayed_matches := displayed2,
        limit_notice := if rest.isEmpty then none else some rest.length }
    else
      let rep := renderLoop limit_per_jar total_limit rest total2 displayed2
      { renders := r :: rep.renders, total_matches := rep.total_matches,
        displayed_matches := rep.displayed_matches, limit_notice := rep.limit_notice }

/-- Lexicographic order on character lists by code point, the order Python
string comparison uses. -/
def listCharLe : List Char → List Char → Bool
  | [], _ => true
  | _ :: _, [] => false
  | c :: cs, d :: ds =>
    if c.toNat < d.toNat then true
    else if d.toNat < c.toNat then false
    else listCharLe cs ds

/-- Model of Python `a <= b` on `str`. -/
def pyStrLe (a b : String) : Bool := listCharLe a.data b.data

/-- Ordered insertion used to model Python `sorted` over the dictionary
keys (the walked JAR paths are pairwise distinct, so any stable comparison
sort produces this result). -/
def insertByPath (x : String × List MatchRecord) :
    List (String × List MatchRecord) → List (String × List MatchRecord)
  | [] => [x]
  | y :: ys => if pyStrLe x.1 y.1 then x :: y :: ys else y :: insertByPath x ys

/-- Model of `sorted(jar_to_matches.keys())` together with the lookups the
loop performs: the association list reordered by path. -/
def sortByPath (l : List (String × List MatchRecord)) :
    List (String × List MatchRecord) :=
  l.foldr insertByPath []

/-- The full report `main` prints for a non-empty result dictionary. -/
def renderReport (limit_per_jar total_limit : Nat)
    (jar_to_matches : List (String × List MatchRecord)) : Report :=
  renderLoop limit_per_jar total_limit (sortByPath jar_to_matches) 0 0

/-- Observable behaviour of one `main` invocation in single-JAR mode. -/
structure MainOutcome where
  error_line : Option String
  scanned : Bool
  printed_no_matches : Bool
  exit_code : Nat
deriving DecidableEq

/-- ASCII single quote, as a string. -/
def sq : String := String.mk [Char.ofNat 0x27]

/-- Embedding of the single-JAR path of `main` (lines 188-197 and 207-208):
if the named archive does not exist, print the error line and `return` —
`asyncio.run(main())` then finishes normally and the interpreter exits with
status 0 (the script never calls `sys.exit`); otherwise scan it, and report
"No occurrences ..." when the result dictionary is empty.  Every
non-raising path therefore exits with status 0. -/
def main_single_jar (cfg : SearchCfg) (jar_path : String) (jar_exists : Bool)
    (archive : ZipArchive) : MainOutcome :=
  if jar_exists then
    let results := scan_jar_file_for_text cfg jar_path archive
    { error_line := none, scanned := true,
      printed_no_matches := results.isEmpty, exit_code := 0 }
  else
    { error_line := some ("Error: JAR file " ++ sq ++ jar_path ++ sq ++ " not found."),
      scanned := false, printed_no_matches := false, exit_code := 0 }

end JarTextScanner

namespace JavaTextSearcher

open PyLib

/-- Embedding of `JavaTextSearcher._find_java_files_sync`: every walked
file whose name ends in `.java` — note the comparison is on the name as
is, with no `lower()`. -/
def _find_java_files_sync (t : FileTree) : List String :=
  (os_walk_files t).filter fun f => pyEndsWith f ".java"

/-- Embedding of the aggregation step of `search_all_files` (lines 139-142):
from the gathered `(file_path, matches)` pairs, keep an entry in
`self.results` only `if matches`.  A file whose search raised contributes
`(path, [])` and is therefore dropped here. -/
def search_all_files (gathered : List (String × List (Nat × String))) :
    List (String × List (Nat × String)) :=
  match gathered with
  | [] => []
  | (p, ms) :: rest =>
    if ms.isEmpty then search_all_files rest
    else (p, ms) :: search_all_files rest

end JavaTextSearcher

/-- Example result dictionary for the reporter: two archives with five
matches each. -/
def exTwoJarFive : List (String × List JarTextScanner.MatchRecord) :=
  [("a.jar", List.replicate 5
      { file_name := "f", jar_path := "a.jar", line_number := 1, snippet := "s" }),
   ("b.jar", List.replicate 5
      { file_name := "f", jar_path := "b.jar", line_number := 1, snippet := "s" })]

/-- The UTF-8 encoding of a character is never empty. -/
theorem utf8EncodeChar_ne_nil (c : Char) : PyLib.utf8EncodeChar c ≠ [] := by
  simp only [PyLib.utf8EncodeChar]
  split_ifs <;> simp

/-- The UTF-8 encoding of a string is empty exactly for the empty string. -/
theorem utf8Encode_eq_nil_iff (s : String) : PyLib.utf8Encode s = [] ↔ s = "" := by
  constructor
  · intro h
    cases s with
    | mk data =>
      cases data with
      | nil => rfl
      | cons c cs =>
        exfalso
        simp only [PyLib.utf8Encode, List.flatMap_cons, List.append_eq_nil] at h
        exact utf8EncodeChar_ne_nil c h.1
  · rintro rfl
    rfl

/-- A binary-mode snippet is never the empty string: it always starts with
the fixed prefix. -/
theorem binary_snippet_ne_empty (x y : String) :
    "Binary match at position " ++ x ++ ": " ++ y ≠ "" := by
  intro h
  have h2 := congrArg String.length h
  simp only [String.length_append] at h2
  have h3 : ("Binary match at position ").length = 25 := rfl
  have h4 : (": ").length = 2 := rfl
  have h5 : ("").length = 0 := rfl
  rw [h3, h4, h5] at h2
  omega

/-- Inserting into the sort accumulator is a permutation of consing. -/
theorem insertByPath_perm (x : String × List JarTextScanner.MatchRecord)
    (l : List (String × List JarTextScanner.MatchRecord)) :
    List.Perm (JarTextScanner.insertByPath x l) (x :: l) := by
  induction l with
  | nil => exact List.Perm.refl _
  | cons y ys ih =>
    simp only [JarTextScanner.insertByPath]
    split
    · exact List.Perm.refl _
    · exact (List.Perm.cons y ih).trans (List.Perm.swap x y ys)

/-- The reporter's key sort is a permutation of its input. -/
theorem sortByPath_perm (l : List (String × List JarTextScanner.MatchRecord)) :
    List.Perm (JarTextScanner.sortByPath l) l := by
  induction l with
  | nil => exact List.Perm.refl _
  | cons x xs ih =>
    have h : JarTextScanner.sortByPath (x :: xs) =
        JarTextScanner.insertByPath x (JarTextScanner.sortByPath xs) := rfl
    rw [h]
    exact (insertByPath_perm x _).trans (List.Perm.cons x ih)

/-- If the display counter is still below the total limit when the loop is
entered, the final displayed count stays below `total_limit - 1 +
limit_per_jar` (the loop checks the budget only after finishing a JAR). -/
theorem renderLoop_displayed_le (L T : Nat) :
    ∀ (l : List (String × List JarTextScanner.MatchRecord)) (total displayed : Nat),
      displayed < T →
      (JarTextScanner.renderLoop L T l total displayed).displayed_matches ≤ T - 1 + L := by
  intro l
  induction l with
  | nil =>
    intro total displayed h
    simp only [JarTextScanner.renderLoop]
    omega
  | cons hd rest ih =>
    intro total displayed h
    obtain ⟨p, ms⟩ := hd
    simp only [JarTextScanner.renderLoop]
    by_cases h2 : T ≤ displayed + min ms.length L
    · rw [if_pos h2]
      dsimp only
      omega
    · rw [if_neg h2]
      dsimp only
      exact ih _ _ (by omega)

/-- If the display budget is never reached, the loop visits every JAR and
the total counter accumulates the full match count. -/
theorem renderLoop_no_break (L T : Nat) :
    ∀ (l : List (String × List JarTextScanner.MatchRecord)) (total displayed : Nat),
      displayed + (l.map fun pr => min pr.2.length L).sum < T →
      (JarTextScanner.renderLoop L T l total displayed).total_matches =
        total + (l.map fun pr => pr.2.length).sum := by
  intro l
  induction l with
  | nil =>
    intro t d h
    simp [JarTextScanner.renderLoop]
  | cons hd rest ih =>
    intro t d h
    obtain ⟨p, ms⟩ := hd
    simp only [List.map_cons, List.sum_cons] at h
    simp only [JarTextScanner.renderLoop]
    rw [if_neg (by omega)]
    dsimp only
    rw [ih _ _ (by omega)]
    simp only [List.map_cons, List.sum_cons]
    omega

/-- A path is a key of the text scanner's result dictionary exactly when
its archive's scan is non-empty. -/
theorem process_jar_files_keys (cfg : JarTextScanner.SearchCfg) (p : String)
    (jars : List (String × PyLib.ZipArchive)) :
    (∃ ms, (p, ms) ∈ JarTextScanner.process_jar_files cfg jars) ↔
      ∃ a, (p, a) ∈ jars ∧ JarTextScanner.scan_jar_file_for_text cfg p a ≠ [] := by
  induction jars with
  | nil => simp [JarTextScanner.process_jar_files]
  | cons hd rest ih =>
    obtain ⟨q, a⟩ := hd
    simp only [JarTextScanner.process_jar_files]
    by_cases h : (JarTextScanner.scan_jar_file_for_text cfg q a).isEmpty
    · rw [if_pos h, ih]
      constructor
      · rintro ⟨a2, h2, h3⟩
        exact ⟨a2, List.mem_cons_of_mem _ h2, h3⟩
      · rintro ⟨a2, h2, h3⟩
        rcases List.mem_cons.mp h2 with h4 | h4
        · exfalso
          have hq : p = q ∧ a2 = a := ⟨congrArg Prod.fst h4, congrArg Prod.snd h4⟩
          obtain ⟨rfl, rfl⟩ := hq
          exact h3 (by simpa using h)
        · exact ⟨a2, h4, h3⟩
    · rw [if_neg h]
      constructor
      · rintro ⟨ms, hms⟩
        rcases List.mem_cons.mp hms with h4 | h4
        · have hq : p = q ∧ ms = JarTextScanner.scan_jar_file_for_text cfg q a :=
            ⟨congrArg Prod.fst h4, congrArg Prod.snd h4⟩
          obtain ⟨rfl, rfl⟩ := hq
          refine ⟨a, List.mem_cons_self _ _, ?_⟩
          intro hnil
          exact h (by rw [hnil]; rfl)
        · obtain ⟨a2, h5, h6⟩ := ih.mp ⟨ms, h4⟩
          exact ⟨a2, List.mem_cons_of_mem _ h5, h6⟩
      · rintro ⟨a2, h2, h3⟩
        rcases List.mem_cons.mp h2 with h4 | h4
        · have hq : p = q ∧ a2 = a := ⟨congrArg Prod.fst h4, congrArg Prod.snd h4⟩
          obtain ⟨rfl, rfl⟩ := hq
          exact ⟨_, List.mem_cons_self _ _⟩
        · obtain ⟨ms, h5⟩ := ih.mpr ⟨a2, h4, h3⟩
          exact ⟨ms, List.mem_cons_of_mem _ h5⟩

/-- A path is a key of the Java searcher's results exactly when its match
list is non-empty. -/
theorem search_all_files_keys (p : String)
    (gathered : List (String × List (Nat × String))) :
    (∃ ms, (p, ms) ∈ JavaTextSearcher.search_all_files gathered) ↔
      ∃ ms, (p, ms) ∈ gathered ∧ ms ≠ [] := by
  induction gathered with
  | nil => simp [JavaTextSearcher.search_all_files]
  | cons hd rest ih =>
    obtain ⟨q, ms0⟩ := hd
    simp only [JavaTextSearcher.search_all_files]
    by_cases h : ms0.isEmpty
    · rw [if_pos h, ih]
      constructor
      · rintro ⟨ms, h2, h3⟩
        exact ⟨ms, List.mem_cons_of_mem _ h2, h3⟩
      · rintro ⟨ms, h2, h3⟩
        rcases List.mem_cons.mp h2 with h4 | h4
        · exfalso
          have hq : p = q ∧ ms = ms0 := ⟨congrArg Prod.fst h4, congrArg Prod.snd h4⟩
          obtain ⟨rfl, rfl⟩ := hq
          exact h3 (by simpa using h)
        · exact ⟨ms, h4, h3⟩
    · rw [if_neg h]
      constructor
      · rintro ⟨ms, hms⟩
        rcases List.mem_cons.mp hms with h4 | h4
        · have hq : p = q ∧ ms = ms0 := ⟨congrArg Prod.fst h4, congrArg Prod.snd h4⟩
          obtain ⟨rfl, rfl⟩ := hq
          exact ⟨ms, List.mem_cons_self _ _, by simpa using h⟩
        · obtain ⟨ms2, h5, h6⟩ := ih.mp ⟨ms, h4⟩
          exact ⟨ms2, List.mem_cons_of_mem _ h5, h6⟩
      · rintro ⟨ms, h2, h3⟩
        rcases List.mem_cons.mp h2 with h4 | h4
        · have hq : p = q ∧ ms = ms0 := ⟨congrArg Prod.fst h4, congrArg Prod.snd h4⟩
          obtain ⟨rfl, rfl⟩ := hq
          exact ⟨ms, List.mem_cons_self _ _⟩
        · obtain ⟨ms2, h5⟩ := ih.mpr ⟨ms, h4, h3⟩
          exact ⟨ms2, List.mem_cons_of_mem _ h5⟩

/-- C1: package-extraction mode is claimed never to emit a duplicate
(package, source) pair for one archive; but the dedup test of
`scan_jar_file` compares a `str` against a list of tuples and never fires,
so an archive with two class files in the same package directory yields the
pair `("com.acme", "a.jar")` twice. -/
theorem c1_scan_jar_file_duplicate_pairs :
    JarPackageScanner.scan_jar_file "a.jar"
      (some [{ name := "com/acme/Foo.class", content := none },
             { name := "com/acme/Bar.class", content := none }]) =
      [("com.acme", "a.jar"), ("com.acme", "a.jar")] := by
  decide

/-- C2 (counterexample): with per-JAR limit 10 and total limit 3, two JARs
of five matches each make the reporter display five match lines (more than
the total limit of 3), and the summary reports 5 matches found although
the true total is 10 — the loop breaks before counting the second JAR. -/
theorem c2_total_limit_counterexample :
    ¬ ((JarTextScanner.renderReport 10 3 exTwoJarFive).displayed_matches ≤ 3 ∧
       (JarTextScanner.renderReport 10 3 exTwoJarFive).total_matches =
         (exTwoJarFive.map fun pr => pr.2.length).sum) := by
  decide

/-- C2 (amended): the reporter checks the total display budget only after
finishing a JAR, so the displayed count is bounded by
`total_limit - 1 + limit_per_jar` rather than by `total_limit`; and the
"Found N matches" count equals the true total only when the budget is
never reached (otherwise it counts just the visited JARs). -/
theorem c2_reporter_limits_amended (L T : Nat)
    (jars : List (String × List JarTextScanner.MatchRecord)) (hT : 1 ≤ T) :
    (JarTextScanner.renderReport L T jars).displayed_matches ≤ T - 1 + L ∧
    ((jars.map fun pr => min pr.2.length L).sum < T →
      (JarTextScanner.renderReport L T jars).total_matches =
        (jars.map fun pr => pr.2.length).sum) := by
  constructor
  · exact renderLoop_displayed_le L T _ 0 0 (by omega)
  · intro h
    have hperm := sortByPath_perm jars
    have hmin : ((JarTextScanner.sortByPath jars).map fun pr => min pr.2.length L).sum =
        (jars.map fun pr => min pr.2.length L).sum :=
      (hperm.map _).sum_eq
    have hlen : ((JarTextScanner.sortByPath jars).map fun pr => pr.2.length).sum =
        (jars.map fun pr => pr.2.length).sum :=
      (hperm.map _).sum_eq
    have h2 := renderLoop_no_break L T (JarTextScanner.sortByPath jars) 0 0
      (by rw [hmin]; omega)
    unfold JarTextScanner.renderReport
    rw [h2, hlen]
    omega

/-- C2 (witness): the amended bound evaluated on a one-JAR report with
per-JAR limit 1 and total limit 5. -/
theorem c2_reporter_limits_amended_witness :
    (JarTextScanner.renderReport 1 5
      [("a.jar", [{ file_name := "f", jar_path := "a.jar", line_number := 1,
                    snippet := "s" }])]).displayed_matches ≤ 5 - 1 + 1 :=
  (c2_reporter_limits_amended 1 5 _ (by omega)).1

/-- C3 (counterexample): a missing explicitly-named archive does print the
error line, but `main` merely returns, so the interpreter exits with status
0 — not the non-zero status the claim states. -/
theorem c3_missing_jar_exit_counterexample :
    (JarTextScanner.main_single_jar
        { search_text := "import", case_sensitive := false, binary_mode := false,
          deep_inspection := false }
        "upo.jar" false none).error_line.isSome = true ∧
    ¬ (JarTextScanner.main_single_jar
        { search_text := "import", case_sensitive := false, binary_mode := false,
          deep_inspection := false }
        "upo.jar" false none).exit_code ≠ 0 := by
  decide

/-- C3 (amended): a missing explicitly-named archive prints the error line
and terminates early (no scan is performed), but with exit status 0; an
existing archive is scanned, an empty result set is reported as "no
matches", and the exit status is again 0 — the script never exits
non-zero on any non-raising path. -/
theorem c3_exit_behavior_amended (cfg : JarTextScanner.SearchCfg) (jar_path : String)
    (archive : PyLib.ZipArchive) :
    ((JarTextScanner.main_single_jar cfg jar_path false archive).error_line.isSome = true ∧
     (JarTextScanner.main_single_jar cfg jar_path false archive).scanned = false ∧
     (JarTextScanner.main_single_jar cfg jar_path false archive).exit_code = 0) ∧
    ((JarTextScanner.main_single_jar cfg jar_path true archive).printed_no_matches =
        (JarTextScanner.scan_jar_file_for_text cfg jar_path archive).isEmpty ∧
     (JarTextScanner.main_single_jar cfg jar_path true archive).exit_code = 0) := by
  simp [JarTextScanner.main_single_jar]

/-- C4: a source whose archive container fails to open contributes zero
records — in text-search mode and in package-extraction mode — and
removing it from a batch leaves the results of every other source
unchanged: the per-archive `except` returns the empty list instead of
propagating. -/
theorem c4_corrupt_archive_isolated (cfg : JarTextScanner.SearchCfg) (p : String)
    (pre post : List (String × PyLib.ZipArchive)) :
    JarTextScanner.scan_jar_file_for_text cfg p none = [] ∧
    JarPackageScanner.scan_jar_file p none = [] ∧
    JarTextScanner.process_jar_files cfg (pre ++ (p, none) :: post) =
      JarTextScanner.process_jar_files cfg (pre ++ post) := by
  refine ⟨rfl, rfl, ?_⟩
  induction pre with
  | nil =>
    simp [JarTextScanner.process_jar_files, JarTextScanner.scan_jar_file_for_text]
  | cons hd tl ih =>
    obtain ⟨q, a⟩ := hd
    simp only [List.cons_append, JarTextScanner.process_jar_files, List.append_eq]
    rw [ih]

/-- C5: for every source the reporter visits, if the per-source limit is
below the match count, exactly `limit` lines are shown and the truncation
notice states how many more matches exist; otherwise all matches are shown
and no notice is printed. -/
theorem c5_per_source_truncation (L : Nat) (p : String)
    (ms : List JarTextScanner.MatchRecord) :
    (L < ms.length →
      (JarTextScanner.renderSource L p ms).shown.length = L ∧
      (JarTextScanner.renderSource L p ms).more_notice = some (ms.length - L)) ∧
    (ms.length ≤ L →
      (JarTextScanner.renderSource L p ms).shown.length = ms.length ∧
      (JarTextScanner.renderSource L p ms).more_notice = none) := by
  constructor
  · intro h
    constructor
    · simp only [JarTextScanner.renderSource, List.length_take]
      omega
    · simp only [JarTextScanner.renderSource]
      rw [if_pos h]
  · intro h
    constructor
    · simp only [JarTextScanner.renderSource, List.length_take]
      omega
    · simp only [JarTextScanner.renderSource]
      rw [if_neg (by omega)]

/-- C5 (witness): a source with five matches under per-source limit 2 shows
exactly two lines and announces three hidden matches. -/
theorem c5_per_source_truncation_witness :
    (JarTextScanner.renderSource 2 "a.jar"
        (List.replicate 5 (JarTextScanner.MatchRecord.mk "f" "a.jar" 1 "s"))).shown.length = 2 ∧
    (JarTextScanner.renderSource 2 "a.jar"
        (List.replicate 5 (JarTextScanner.MatchRecord.mk "f" "a.jar" 1 "s"))).more_notice =
      some 3 := by
  have h := (c5_per_source_truncation 2 "a.jar"
    (List.replicate 5 (JarTextScanner.MatchRecord.mk "f" "a.jar" 1 "s"))).1 (by decide)
  simpa using h

/-- C6: in binary mode, an entry whose raw bytes contain the encoded search
string yields exactly one record — at the first occurrence — whose line
number is 0 and whose snippet is non-empty. -/
theorem c6_binary_single_match (cfg : JarTextScanner.SearchCfg)
    (jar_path name : String) (content : PyLib.PyBytes)
    (hb : cfg.binary_mode = true)
    (hc : PyLib.pyBytesContains content (PyLib.utf8Encode cfg.search_text) = true) :
    (JarTextScanner.scanEntry cfg jar_path ⟨name, some content⟩).length = 1 ∧
    ∀ r ∈ JarTextScanner.scanEntry cfg jar_path ⟨name, some content⟩,
      r.line_number = 0 ∧ r.snippet ≠ "" := by
  have hentry : JarTextScanner.scanEntry cfg jar_path ⟨name, some content⟩ =
      JarTextScanner.scanEntryBinary cfg jar_path name content := by
    simp [JarTextScanner.scanEntry, JarTextScanner.is_target_file, hb]
  rw [hentry]
  cases hfind : PyLib.pyBytesFind content (PyLib.utf8Encode cfg.search_text) with
  | none =>
    exfalso
    rw [PyLib.pyBytesContains, hfind] at hc
    simp at hc
  | some pos =>
    simp only [JarTextScanner.scanEntryBinary, hfind]
    constructor
    · simp
    · intro r hr
      rw [List.mem_singleton] at hr
      subst hr
      exact ⟨rfl, binary_snippet_ne_empty _ _⟩

/-- C6 (witness): searching for "ab" in an entry whose bytes spell
"xxabyy" yields exactly one record. -/
theorem c6_binary_single_match_witness :
    (JarTextScanner.scanEntry
        { search_text := "ab", case_sensitive := false, binary_mode := true,
          deep_inspection := false }
        "j.jar" { name := "x.bin", content := some [120, 120, 97, 98, 121, 121] }).length = 1 :=
  (c6_binary_single_match _ "j.jar" "x.bin" _ rfl (by decide)).1

/-- C7 (counterexample): the claim says an empty entry never produces a
record, but in binary mode with the empty search string the empty byte
string is found in empty content (`b"" in b""` is true), producing one
record. -/
theorem c7_empty_entry_counterexample :
    (JarTextScanner.scan_jar_file_for_text
        { search_text := "", case_sensitive := false, binary_mode := true,
          deep_inspection := false }
        "j.jar" (some [{ name := "data.bin", content := some [] }])).length = 1 := by
  decide

/-- C7 (amended): an entry with zero-length content never produces a
record when the search string is non-empty (either mode), and never in
text mode regardless of the search string; the only exception is binary
mode with an empty search string. -/
theorem c7_empty_entry_amended (cfg : JarTextScanner.SearchCfg) (jar_path name : String) :
    (cfg.search_text ≠ "" →
      JarTextScanner.scanEntry cfg jar_path ⟨name, some []⟩ = []) ∧
    (cfg.binary_mode = false →
      JarTextScanner.scanEntry cfg jar_path ⟨name, some []⟩ = []) := by
  have htext : JarTextScanner.scanEntryText cfg jar_path name [] = [] := rfl
  constructor
  · intro hs
    cases hb : cfg.binary_mode
    · simp [JarTextScanner.scanEntry, hb, htext]
    · have hne : PyLib.utf8Encode cfg.search_text ≠ [] := by
        intro h0
        exact hs ((utf8Encode_eq_nil_iff cfg.search_text).mp h0)
      have hfind : PyLib.pyBytesFind [] (PyLib.utf8Encode cfg.search_text) = none := by
        rcases hE : PyLib.utf8Encode cfg.search_text with _ | ⟨b, bs⟩
        · exact absurd hE hne
        · simp [PyLib.pyBytesFind, PyLib.pyBytesFindAux]
      simp [JarTextScanner.scanEntry, hb, JarTextScanner.is_target_file,
        JarTextScanner.scanEntryBinary, hfind]
  · intro hb
    simp [JarTextScanner.scanEntry, hb, htext]

/-- C7 (witness): the amended statement evaluated in text mode on an empty
`.java` entry. -/
theorem c7_empty_entry_amended_witness :
    JarTextScanner.scanEntry
        { search_text := "x", case_sensitive := false, binary_mode := false,
          deep_inspection := false }
        "j.jar" { name := "A.java", content := some [] } = [] :=
  (c7_empty_entry_amended _ "j.jar" "A.java").2 rfl

/-- C8 (counterexample): the claim says suffixes are compared
case-insensitively for both enumerators, but the Java-source enumerator
misses `A.Java`, which a case-insensitive comparison would accept. -/
theorem c8_case_sensitivity_counterexample :
    JavaTextSearcher._find_java_files_sync (PyLib.FileTree.node ["A.Java"] []) = [] ∧
    PyLib.pyEndsWith (PyLib.pyLower "A.Java") ".java" = true := by
  decide

/-- C8 (amended): the JAR enumerator yields exactly the walked files whose
lower-cased name ends in `.jar` (case-insensitive, e.g. `LIB.JAR`
matches), while the Java-source enumerator compares `.java`
case-sensitively, so `A.Java` does not match. -/
theorem c8_suffix_matching_amended (t : PyLib.FileTree) (f : String) :
    (f ∈ JarPackageScanner.find_jar_files t ↔
      f ∈ PyLib.os_walk_files t ∧ PyLib.pyEndsWith (PyLib.pyLower f) ".jar" = true) ∧
    (f ∈ JavaTextSearcher._find_java_files_sync t ↔
      f ∈ PyLib.os_walk_files t ∧ PyLib.pyEndsWith f ".java" = true) ∧
    PyLib.pyEndsWith (PyLib.pyLower "LIB.JAR") ".jar" = true ∧
    PyLib.pyEndsWith "A.Java" ".java" = false := by
  refine ⟨?_, ?_, by decide, by decide⟩
  · simp [JarPackageScanner.find_jar_files, List.mem_filter]
  · simp [JavaTextSearcher._find_java_files_sync, List.mem_filter]

/-- C9: the key set of each aggregated result mapping is exactly the set of
source paths whose scan produced at least one match — zero-match sources
(including failed ones, which contribute the empty list) never appear, and
every source with a match appears. -/
theorem c9_scanresult_keys (cfg : JarTextScanner.SearchCfg)
    (jars : List (String × PyLib.ZipArchive))
    (gathered : List (String × List (Nat × String))) (p : String) :
    ((∃ ms, (p, ms) ∈ JarTextScanner.process_jar_files cfg jars) ↔
      ∃ a, (p, a) ∈ jars ∧ JarTextScanner.scan_jar_file_for_text cfg p a ≠ []) ∧
    ((∃ ms, (p, ms) ∈ JavaTextSearcher.search_all_files gathered) ↔
      ∃ ms, (p, ms) ∈ gathered ∧ ms ≠ []) :=
  ⟨process_jar_files_keys cfg p jars, search_all_files_keys p gathered⟩

/-- C10: in text mode an entry is scanned exactly when its name ends
(case-sensitively) in one of the fixed extensions or its full path has no
dot; hence `README.TXT` is skipped, `readme.txt` is scanned, and the
extensionless `v1.0/MANIFEST` is skipped because of the dot in its
directory name. -/
theorem c10_text_mode_entry_filter (name : String) :
    (JarTextScanner.is_target_file false name = true ↔
      ((∃ ext ∈ JarTextScanner.text_extensions, PyLib.pyEndsWith name ext = true) ∨
        ¬ PyLib.pyContainsChar name '.' = true)) ∧
    JarTextScanner.is_target_file false "README.TXT" = false ∧
    JarTextScanner.is_target_file false "readme.txt" = true ∧
    JarTextScanner.is_target_file false "v1.0/MANIFEST" = false := by
  refine ⟨?_, by decide, by decide, by decide⟩
  simp [JarTextScanner.is_target_file, List.any_eq_true, Bool.or_eq_true,
    Bool.not_eq_true']
